import Mathlib

/-!
MyDollsCollection: request routing and request lifecycle of `main.go`.

A shallow embedding of `src/main.go`: the two resource handlers `handleDolls`
and `handleDoll`, the repository functions `getDoll`, `getDollList`, `newDoll`,
`updateDoll`, `donateDoll`, and the parts of the Go standard library they call
(`strings.Split`, `strconv.Atoi`, `time.Parse` and `Time.Format` for the layout
`2006-01-02 15:04:05`, `fmt.Sprintf("%d")`).

Go strings are byte sequences; they are embedded as lists of byte values.
The relational store, the JSON codec and the connection behind the
`http.ResponseWriter` are the environment: their outcomes are inputs of the
model (`Env`), and every statement sent to the store is recorded.
-/

namespace MyDolls

/-! ## Go strings -/

/-- A Go string: its bytes, in order. -/
abbrev GoString := List Nat

/-- The bytes of an ASCII literal. -/
def str (s : String) : GoString := s.toList.map Char.toNat

/-! ## `strings.Index`, `strings.Count`, `strings.Split` -/

/-- Go `strings.Index(s, sep)`: offset of the first occurrence of `sep` in `s`;
`none` stands for Go's `-1`. -/
def Index : GoString → GoString → Option Nat
  | [], sep => if sep.isPrefixOf [] then some 0 else none
  | c :: t, sep =>
    if sep.isPrefixOf (c :: t) then some 0 else (Index t sep).map (· + 1)

/-- The loop of Go `strings.Count` for a separator of length at least one:
`for { i := Index(s, substr); if i == -1 { return n }; n++; s = s[i+len(substr):] }`.
The first argument bounds the number of iterations; `Count` passes `len(s)`,
which the loop cannot exceed because every iteration removes at least one
byte. -/
def countLoop (sep : GoString) : Nat → GoString → Nat
  | 0, _ => 0
  | fuel + 1, s =>
    match Index s sep with
    | none => 0
    | some i => countLoop sep fuel (s.drop (i + sep.length)) + 1

/-- Go `strings.Count(s, substr)`: number of non-overlapping instances of
`substr` in `s`. For the empty separator Go returns the number of runes plus
one; the model counts bytes there, which agrees on ASCII text (the handlers
only ever pass the separator `dolls/`). -/
def Count (s sep : GoString) : Nat :=
  if sep = [] then s.length + 1 else countLoop sep s.length s

/-- The loop of Go `strings.genSplit`:
`for i < n { m := Index(s, sep); if m < 0 { break }; a[i] = s[:m]; s = s[m+len(sep):]; i++ }; a[i] = s`.
The first argument is the number of iterations still allowed, `n - i`. -/
def splitLoop (sep : GoString) : Nat → GoString → List GoString
  | 0, s => [s]
  | k + 1, s =>
    match Index s sep with
    | none => [s]
    | some m => s.take m :: splitLoop sep k (s.drop (m + sep.length))

/-- Go `strings.Split(s, sep)`, that is `genSplit(s, sep, 0, -1)`:
`n = Count(s, sep) + 1`, capped at `len(s) + 1`, then the loop runs while
`i < n - 1`. For the empty separator Go explodes `s` into UTF-8 sequences;
the model explodes into bytes there (never reached by the handlers). -/
def Split (s sep : GoString) : List GoString :=
  if sep = [] then s.map (fun c => [c])
  else splitLoop sep (min (Count s sep + 1) (s.length + 1) - 1) s

/-! ## `strconv.Atoi` -/

/-- The digit loop shared by the fast path of `strconv.Atoi` and by
`strconv.ParseUint` in base 10: `none` when a byte is not a decimal digit,
otherwise the value read (unbounded here; the callers check the range). -/
def digitsValue : Nat → GoString → Option Nat
  | n, [] => some n
  | n, ch :: t => if 48 ≤ ch ∧ ch ≤ 57 then digitsValue (n * 10 + (ch - 48)) t else none

/-- Go `strconv.ParseInt(s, 10, 0)` on a 64-bit platform: an optional sign,
at least one digit, only digits, and a value in `[-2^63, 2^63 - 1]`;
`none` stands for the syntax error and for the range error alike. -/
def ParseInt (s : GoString) : Option Int :=
  match s with
  | [] => none
  | c :: t =>
    let neg := c = 45
    let ds := if c = 45 ∨ c = 43 then t else c :: t
    if ds = [] then none
    else
      match digitsValue 0 ds with
      | none => none
      | some un =>
        if un ≥ 2 ^ 64 then none
        else if ¬ neg ∧ un ≥ 2 ^ 63 then none
        else if neg ∧ un > 2 ^ 63 then none
        else some (if neg then - (un : Int) else (un : Int))

/-- Go `strconv.Atoi(s)` with `intSize == 64`: the fast path for
`0 < len(s) < 19`, else `ParseInt(s, 10, 0)`. `none` stands for a non-nil
error. -/
def Atoi (s : GoString) : Option Int :=
  if 0 < s.length ∧ s.length < 19 then
    match s with
    | [] => none
    | c :: t =>
      let ds := if c = 45 ∨ c = 43 then t else c :: t
      if (c = 45 ∨ c = 43) ∧ t.length < 1 then none
      else
        match digitsValue 0 ds with
        | none => none
        | some n => some (if c = 45 then - (n : Int) else (n : Int))
  else ParseInt s

/-! ## `time.Time`, `Time.Format` and `time.Parse` for the storage layout -/

/-- A Go `time.Time`, by what `Format` and `Parse` observe of it: the civil
date and clock in the value's own location, the nanosecond, and the zone
offset (seconds east of UTC). -/
structure Time where
  year : Int
  month : Nat
  day : Nat
  hour : Nat
  min : Nat
  sec : Nat
  nsec : Nat
  offset : Int
deriving DecidableEq, Repr

/-- Go `time.isLeap`. -/
def isLeap (year : Int) : Bool :=
  year % 4 = 0 ∧ (year % 100 ≠ 0 ∨ year % 400 = 0)

/-- Go `time.daysIn(m, year)`: February of a leap year has 29 days, otherwise
the difference of consecutive `daysBefore` entries. -/
def daysIn (m : Nat) (year : Int) : Nat :=
  if m = 2 ∧ isLeap year then 29
  else
    match m with
    | 1 => 31 | 2 => 28 | 3 => 31 | 4 => 30 | 5 => 31 | 6 => 30
    | 7 => 31 | 8 => 31 | 9 => 30 | 10 => 31 | 11 => 30 | 12 => 31
    | _ => 0

/-- The civil fields every Go `Time` has: a real calendar day and a clock
within the day. -/
def Time.valid (t : Time) : Prop :=
  1 ≤ t.month ∧ t.month ≤ 12 ∧ 1 ≤ t.day ∧ t.day ≤ daysIn t.month t.year ∧
  t.hour < 24 ∧ t.min < 60 ∧ t.sec < 60 ∧ t.nsec < 1000000000

instance (t : Time) : Decidable t.valid := by
  unfold Time.valid; infer_instance

/-- Go `time.appendInt(b, x, width)`, the bytes appended: a minus sign for a
negative `x`, then the decimal digits of `|x|`, zero-padded to `width`; with
the two table-driven fast paths for widths 2 and 4. -/
def appendInt (x : Int) (width : Nat) : GoString :=
  let u := x.natAbs
  let sign : GoString := if x < 0 then [45] else []
  if width = 2 ∧ u < 100 then sign ++ [48 + u / 10, 48 + u % 10]
  else if width = 4 ∧ u < 10000 then
    sign ++ [48 + u / 1000, 48 + u / 100 % 10, 48 + u / 10 % 10, 48 + u % 10]
  else
    let ds := (Nat.toDigits 10 u).map Char.toNat
    sign ++ List.replicate (width - ds.length) 48 ++ ds

/-- Go `t.Format("2006-01-02 15:04:05")`: the chunks `stdLongYear`,
`stdZeroMonth`, `stdZeroDay`, `stdHour`, `stdZeroMinute`, `stdZeroSecond`
with their literal separators. -/
def Time.Format (t : Time) : GoString :=
  appendInt t.year 4 ++ [45] ++ appendInt t.month 2 ++ [45] ++ appendInt t.day 2 ++ [32] ++
  appendInt t.hour 2 ++ [58] ++ appendInt t.min 2 ++ [58] ++ appendInt t.sec 2

/-- Go `time.isDigit(s, i)`. -/
def isDigit (s : GoString) (i : Nat) : Bool :=
  match s.get? i with
  | none => false
  | some c => 48 ≤ c ∧ c ≤ 57

/-- Go `time.getnum(s, fixed)`: one or two leading digits (exactly two when
`fixed`), with the rest of the string. -/
def getnum (s : GoString) (fixed : Bool) : Option (Nat × GoString) :=
  if ¬ isDigit s 0 then none
  else if ¬ isDigit s 1 then
    if fixed then none else some (s.headD 0 - 48, s.drop 1)
  else some ((s.headD 0 - 48) * 10 + ((s.drop 1).headD 0 - 48), s.drop 2)

/-- Go `time.leadingInt(s)`: the leading decimal digits as a number and the
rest; `none` when the number exceeds `1 << 63`. -/
def leadingInt : Nat → GoString → Option (Nat × GoString)
  | x, [] => some (x, [])
  | x, c :: t =>
    if c < 48 ∨ c > 57 then some (x, c :: t)
    else if x > 2 ^ 63 / 10 then none
    else if x * 10 + (c - 48) > 2 ^ 63 then none
    else leadingInt (x * 10 + (c - 48)) t

/-- Go `time.atoi(s)`: optional sign, then digits up to the end of `s`;
`int(q)` and the negation wrap around as 64-bit integers. -/
def timeAtoi (s : GoString) : Option Int :=
  let neg := s.head? = some 45
  let s1 := if s.head? = some 45 ∨ s.head? = some 43 then s.drop 1 else s
  match leadingInt 0 s1 with
  | none => none
  | some (q, rem) =>
    if rem ≠ [] then none
    else
      let x : Int := if q < 2 ^ 63 then q else (q : Int) - 2 ^ 64
      some (if neg then (if x = - 2 ^ 63 then x else - x) else x)

/-- Go `time.cutspace(s)`. -/
def cutspace (s : GoString) : GoString := s.dropWhile (· = 32)

/-- Go `time.skip(value, prefix)`: removes the literal `prefix` from `value`,
a run of spaces in the layout matching any run of spaces in the value. The
first argument bounds the iterations; `skip` passes `len(prefix)`. -/
def skipLoop : Nat → GoString → GoString → Option GoString
  | _, value, [] => some value
  | 0, _, _ :: _ => none
  | fuel + 1, value, p :: ps =>
    if p = 32 then
      match value with
      | v :: _ => if v ≠ 32 then none else skipLoop fuel (cutspace value) (cutspace (p :: ps))
      | [] => skipLoop fuel (cutspace value) (cutspace (p :: ps))
    else
      match value with
      | [] => none
      | v :: vs => if v ≠ p then none else skipLoop fuel vs ps

/-- Go `time.skip`. -/
def skip (value pre : GoString) : Option GoString := skipLoop pre.length value pre

/-- Go `time.commaOrPeriod`. -/
def commaOrPeriod (b : Nat) : Bool := b = 46 ∨ b = 44

/-- Go `time.parseNanoseconds(value, nbytes)`: the digits after the
separator, at most nine of them, scaled to nanoseconds. -/
def parseNanoseconds (value : GoString) (nbytes : Nat) : Option Nat :=
  if ¬ commaOrPeriod (value.headD 0) then none
  else
    let value := if nbytes > 10 then value.take 10 else value
    let nbytes := if nbytes > 10 then 10 else nbytes
    match timeAtoi ((value.take nbytes).drop 1) with
    | none => none
    | some ns => if ns < 0 then none else some (ns.toNat * 10 ^ (10 - nbytes))

/-- Go `time.Parse("2006-01-02 15:04:05", value)`: the chunks of the layout in
order, each literal removed by `skip`; a fractional second in the value is
accepted although the layout has none; no text may remain; the day is checked
against the month at the end. The fields are then all in range, so
`Date(year, month, day, hour, min, sec, nsec, UTC)` normalises nothing.
`none` stands for a `*time.ParseError`. -/
def Parse (value : GoString) : Option Time :=
  if value.length < 4 ∨ ¬ isDigit value 0 then none else
  match timeAtoi (value.take 4) with
  | none => none
  | some year =>
  match skip (value.drop 4) [45] with
  | none => none
  | some value =>
  match getnum value true with
  | none => none
  | some (month, value) =>
  if month ≤ 0 ∨ 12 < month then none else
  match skip value [45] with
  | none => none
  | some value =>
  match getnum value true with
  | none => none
  | some (day, value) =>
  match skip value [32] with
  | none => none
  | some value =>
  match getnum value false with
  | none => none
  | some (hour, value) =>
  if 24 ≤ hour then none else
  match skip value [58] with
  | none => none
  | some value =>
  match getnum value true with
  | none => none
  | some (min, value) =>
  if 60 ≤ min then none else
  match skip value [58] with
  | none => none
  | some value =>
  match getnum value true with
  | none => none
  | some (sec, value) =>
  if 60 ≤ sec then none else
  let frac : Option (Nat × GoString) :=
    if value.length ≥ 2 ∧ commaOrPeriod (value.headD 0) ∧ isDigit value 1 then
      let n := 2 + ((value.drop 2).takeWhile (fun c => 48 ≤ c ∧ c ≤ 57)).length
      match parseNanoseconds value n with
      | none => none
      | some nsec => some (nsec, value.drop n)
    else some (0, value)
  match frac with
  | none => none
  | some (nsec, value) =>
  if value.length ≠ 0 then none
  else if day < 1 ∨ day > daysIn month year then none
  else some ⟨year, month, day, hour, min, sec, nsec, 0⟩

/-! ## `fmt.Sprintf("%d", n)` -/

/-- Go `%d` of an `int`: decimal digits, with a minus sign for a negative
number. -/
def fmtD (n : Int) : GoString :=
  (if n < 0 then [45] else []) ++ (Nat.toDigits 10 n.natAbs).map Char.toNat

/-! ## Data model -/

/-- A Go `float64` by its IEEE-754 bit pattern; the program only transports
prices, it never computes with them. -/
abbrev Float64 := Nat

/-- Go `type Doll struct`. -/
structure Doll where
  ID : Int
  Name : GoString
  Price : Float64
  AnimalType : GoString
  BuyDate : Time
deriving DecidableEq, Repr

/-- Go `const dollPath = "dolls"`. -/
def dollPath : GoString := str "dolls"

/-! ## Environment: `database/sql`, `encoding/json`, the connection -/

/-- A non-nil Go `error` reaching the repository functions: the 3-second
`context.WithTimeout` deadline expiring, any other error of the store or of
`Scan`, or the `*time.ParseError` of `time.Parse`. -/
inductive GoError where
  | deadlineExceeded
  | backend (code : Nat)
  | timeParse
deriving DecidableEq, Repr

/-- The five parameterised statements of `main.go`, with their arguments. -/
inductive Stmt where
  | selectOne (dollID : Int)
  | selectAll
  | insert (name : GoString) (price : Float64) (animalType : GoString) (buyDate : GoString)
  | update (name : GoString) (price : Float64) (animalType : GoString) (buyDate : GoString)
      (dollID : Int)
  | delete (dollID : Int)
deriving DecidableEq, Repr

/-- The destination variables of a `Scan` call after it ran:
`doll.ID, doll.Name, doll.Price, doll.AnimalType, buyDate`. -/
structure Row where
  id : Int
  name : GoString
  price : Float64
  animalType : GoString
  buyDate : GoString
deriving DecidableEq, Repr

/-- What `Db.QueryRowContext(...).Scan(...)` returns: `sql.ErrNoRows`, another
error, or nil with the destinations filled. -/
inductive ScanResult where
  | errNoRows
  | failed (e : GoError)
  | row (r : Row)
deriving DecidableEq, Repr

/-- What `Db.QueryContext` returns: an error, or the rows that
`results.Next()` then yields. `getDollList` ignores the error of
`results.Scan`, so a row is what the destinations hold after the call. -/
inductive QueryResult where
  | failed (e : GoError)
  | rows (rs : List Row)
deriving DecidableEq, Repr

/-- A Go `sql.Result`: `LastInsertId()` and `RowsAffected()`, each a value or
an error. -/
structure SqlResult where
  lastInsertId : Except GoError Int
  rowsAffected : Except GoError Int

/-- What `Db.ExecContext` returns. -/
inductive ExecResult where
  | failed (e : GoError)
  | ok (result : SqlResult)

/-- The collaborators of the handlers during one request. The store answers
each statement; `decode` is `json.NewDecoder(r.Body).Decode(&doll)` on a zero
`Doll` (`none` for an error); `marshalDoll` and `marshalList` are
`json.Marshal` (`none` for an error); `writeFails` tells whether
`w.Write` returns an error. -/
structure Env where
  queryRow : Int → ScanResult
  query : QueryResult
  exec : Stmt → ExecResult
  decode : GoString → Option Doll
  marshalDoll : Doll → Option GoString
  marshalList : List Doll → Option GoString
  writeFails : Bool

/-! ## Repository functions -/

/-- Go `getDoll(dollID)`: `(nil, nil)` is `.ok none`. The second component is
the statement sent to the store. -/
def getDoll (env : Env) (dollID : Int) : Except GoError (Option Doll) × List Stmt :=
  (match env.queryRow dollID with
    | .errNoRows => .ok none
    | .failed e => .error e
    | .row r =>
      match Parse r.buyDate with
      | none => .error .timeParse
      | some buyDate => .ok (some ⟨r.id, r.name, r.price, r.animalType, buyDate⟩),
   [Stmt.selectOne dollID])

/-- The `for results.Next()` loop of `getDollList`: the first date that does
not parse ends it with the error. -/
def scanDolls : List Row → List Doll → Except GoError (List Doll)
  | [], dolls => .ok dolls
  | r :: rest, dolls =>
    match Parse r.buyDate with
    | none => .error .timeParse
    | some buyDate => scanDolls rest (dolls ++ [⟨r.id, r.name, r.price, r.animalType, buyDate⟩])

/-- Go `getDollList()`. -/
def getDollList (env : Env) : Except GoError (List Doll) × List Stmt :=
  (match env.query with
    | .failed e => .error e
    | .rows rs => scanDolls rs [],
   [Stmt.selectAll])

/-- The statement `newDoll` sends: the insert with the four columns; `doll.ID`
is not among the arguments. -/
def insertStmt (doll : Doll) : Stmt :=
  .insert doll.Name doll.Price doll.AnimalType doll.BuyDate.Format

/-- Go `newDoll(doll)`. -/
def newDoll (env : Env) (doll : Doll) : Except GoError Int × List Stmt :=
  (match env.exec (insertStmt doll) with
    | .failed e => .error e
    | .ok result =>
      match result.lastInsertId with
      | .error e => .error e
      | .ok insertID => .ok insertID,
   [insertStmt doll])

/-- The statement `updateDoll` sends. -/
def updateStmt (doll : Doll) (dollID : Int) : Stmt :=
  .update doll.Name doll.Price doll.AnimalType doll.BuyDate.Format dollID

/-- Go `updateDoll(doll, dollID)`: `none` is the nil error. The
`sql.Result` is discarded (`_, err := Db.ExecContext`). -/
def updateDoll (env : Env) (doll : Doll) (dollID : Int) : Option GoError × List Stmt :=
  (match env.exec (updateStmt doll dollID) with
    | .failed e => some e
    | .ok _ => none,
   [updateStmt doll dollID])

/-- Go `donateDoll(dollID)`: `none` is the nil error. The `sql.Result` is
discarded. -/
def donateDoll (env : Env) (dollID : Int) : Option GoError × List Stmt :=
  (match env.exec (.delete dollID) with
    | .failed e => some e
    | .ok _ => none,
   [Stmt.delete dollID])

/-! ## HTTP -/

/-- The parts of `*http.Request` the handlers read: `r.Method`, `r.URL.Path`
and the bytes of `r.Body`. -/
structure Request where
  Method : GoString
  Path : GoString
  Body : GoString

/-- What the handler has handed to its `http.ResponseWriter`: the status code
of `WriteHeader` (`none` while no header was written) and the bytes
written. -/
structure ResponseWriter where
  code : Option Nat
  body : GoString
deriving DecidableEq, Repr

/-- Go `w.WriteHeader(code)`; a second call is ignored by `net/http`. -/
def ResponseWriter.WriteHeader (w : ResponseWriter) (code : Nat) : ResponseWriter :=
  if w.code.isSome then w else { w with code := some code }

/-- Go `w.Write(b)`: writes the header with `200 OK` when none was written. -/
def ResponseWriter.Write (w : ResponseWriter) (b : GoString) : ResponseWriter :=
  { code := some (w.code.getD 200), body := w.body ++ b }

/-- How a handler stops: it returns, `log.Fatal` ends the process, or an index
is out of range (a run-time panic). -/
inductive Exit where
  | returned
  | fatal
  | panicked
deriving DecidableEq, Repr

/-- One run of a handler: the response handed to the writer, the statements
sent to the store in order, and how the handler stopped. -/
structure Outcome where
  w : ResponseWriter
  calls : List Stmt
  exit : Exit
deriving DecidableEq, Repr

/-- The status of the response: the code written, or `200 OK`, which
`net/http` sends when the handler returns without writing a header. -/
def Outcome.status (o : Outcome) : Nat := o.w.code.getD 200

/-- The body of the response. -/
def Outcome.body (o : Outcome) : GoString := o.w.body

def MethodGet : GoString := str "GET"
def MethodPost : GoString := str "POST"
def MethodPut : GoString := str "PUT"
def MethodDelete : GoString := str "DELETE"
def MethodOptions : GoString := str "OPTIONS"

def StatusOK : Nat := 200
def StatusCreated : Nat := 201
def StatusBadRequest : Nat := 400
def StatusNotFound : Nat := 404
def StatusMethodNotAllowed : Nat := 405
def StatusInternalServerError : Nat := 500

/-- Go `handleDolls(w, r)`. -/
def handleDolls (env : Env) (r : Request) : Outcome :=
  let w : ResponseWriter := ⟨none, []⟩
  if r.Method = MethodGet then
    match getDollList env with
    | (.error _, calls) => ⟨w.WriteHeader StatusInternalServerError, calls, .returned⟩
    | (.ok dollList, calls) =>
      match env.marshalList dollList with
      | none => ⟨w, calls, .fatal⟩
      | some dollListJSON =>
        ⟨w.Write dollListJSON, calls, if env.writeFails then .fatal else .returned⟩
  else if r.Method = MethodPost then
    match env.decode r.Body with
    | none => ⟨w.WriteHeader StatusBadRequest, [], .returned⟩
    | some doll =>
      match newDoll env doll with
      | (.error _, calls) => ⟨w.WriteHeader StatusBadRequest, calls, .returned⟩
      | (.ok dollID, calls) =>
        ⟨(w.WriteHeader StatusCreated).Write (str "dollID:" ++ fmtD dollID), calls, .returned⟩
  else if r.Method = MethodOptions then ⟨w, [], .returned⟩
  else ⟨w.WriteHeader StatusMethodNotAllowed, [], .returned⟩

/-- Go `fmt.Sprintf("%s/", dollPath)`, the separator `dolls/`. -/
def pathMarker : GoString := dollPath ++ str "/"

/-- What lines 242 to 253 of `handleDoll` decide about the path. -/
inductive PathResult where
  | outOfRange
  | badRequest
  | notFound
  | id (dollID : Int)
deriving DecidableEq, Repr

/-- Lines 242 to 253 of `handleDoll`: split `r.URL.Path` on
`pathMarker`; `urlPathSegment[1:]` and
`urlPathSegment[len(urlPathSegment)-1]` are out of range on an empty slice;
more than one piece after the first is a bad request; the last piece goes to
`strconv.Atoi`. -/
def dollPathCheck (path : GoString) : PathResult :=
  let urlPathSegment := Split path pathMarker
  if urlPathSegment.length < 1 then .outOfRange
  else if (urlPathSegment.drop 1).length > 1 then .badRequest
  else
    match urlPathSegment.get? (urlPathSegment.length - 1) with
    | none => .outOfRange
    | some seg =>
      match Atoi seg with
      | none => .notFound
      | some dollID => .id dollID

/-- Go `handleDoll(w, r)`. -/
def handleDoll (env : Env) (r : Request) : Outcome :=
  let w : ResponseWriter := ⟨none, []⟩
  match dollPathCheck r.Path with
  | .outOfRange => ⟨w, [], .panicked⟩
  | .badRequest => ⟨w.WriteHeader StatusBadRequest, [], .returned⟩
  | .notFound => ⟨w.WriteHeader StatusNotFound, [], .returned⟩
  | .id dollID =>
    if r.Method = MethodGet then
      match getDoll env dollID with
      | (.error _, calls) => ⟨w.WriteHeader StatusInternalServerError, calls, .returned⟩
      | (.ok none, calls) => ⟨w.WriteHeader StatusNotFound, calls, .returned⟩
      | (.ok (some doll), calls) =>
        match env.marshalDoll doll with
        | none => ⟨w, calls, .fatal⟩
        | some dollJSON =>
          ⟨w.Write dollJSON, calls, if env.writeFails then .fatal else .returned⟩
    else if r.Method = MethodPut then
      match env.decode r.Body with
      | none => ⟨w.WriteHeader StatusBadRequest, [], .returned⟩
      | some doll =>
        match updateDoll env doll dollID with
        | (some _, calls) => ⟨w.WriteHeader StatusBadRequest, calls, .returned⟩
        | (none, calls) => ⟨w.WriteHeader StatusOK, calls, .returned⟩
    else if r.Method = MethodDelete then
      match donateDoll env dollID with
      | (some _, calls) => ⟨w.WriteHeader StatusInternalServerError, calls, .returned⟩
      | (none, calls) => ⟨w.WriteHeader StatusOK, calls, .returned⟩
    else ⟨w.WriteHeader StatusMethodNotAllowed, [], .returned⟩

/-! ## Specification vocabulary -/

/-- The number of offsets of `s` at which `sep` occurs. -/
def occurrences (sep : GoString) : GoString → Nat
  | [] => if sep.isPrefixOf [] then 1 else 0
  | c :: t => (if sep.isPrefixOf (c :: t) then 1 else 0) + occurrences sep t

/-! ## Sample environments -/

/-- The doll every sample codec decodes a body to; its price is the bit
pattern of 12.5. -/
def teddy : Doll :=
  ⟨0, str "Teddy", 4623226492472524800, str "bear", ⟨2024, 2, 29, 7, 5, 9, 0, 0⟩⟩

/-- A sample JSON codec: every body decodes to `teddy`; the encodings are
stand-ins that only show the id. -/
def sampleMarshal (d : Doll) : Option GoString :=
  some (str "\x7b\"id\":" ++ fmtD d.ID ++ str "\x7d")

/-- A store with no rows that accepts every statement (no row affected,
generated id 1), and a healthy connection. -/
def emptyStore : Env where
  queryRow := fun _ => .errNoRows
  query := .rows []
  exec := fun _ => .ok ⟨.ok 1, .ok 0⟩
  decode := fun _ => some teddy
  marshalDoll := sampleMarshal
  marshalList := fun _ => some (str "[]")
  writeFails := false

/-- The stored row of doll 7. -/
def teddyRow : Row :=
  ⟨7, str "Teddy", 4623226492472524800, str "bear", str "2024-02-29 07:05:09"⟩

/-- A store holding the single row `teddyRow`; an insert gets id 8. -/
def oneDollStore : Env where
  queryRow := fun dollID => if dollID = 7 then .row teddyRow else .errNoRows
  query := .rows [teddyRow]
  exec := fun _ => .ok ⟨.ok 8, .ok 1⟩
  decode := fun _ => some teddy
  marshalDoll := sampleMarshal
  marshalList := fun _ => some (str "[...]")
  writeFails := false

/-- A store whose every call ends by the deadline. -/
def brokenStore : Env where
  queryRow := fun _ => .failed .deadlineExceeded
  query := .failed .deadlineExceeded
  exec := fun _ => .failed .deadlineExceeded
  decode := fun _ => some teddy
  marshalDoll := sampleMarshal
  marshalList := fun _ => some (str "[]")
  writeFails := false

/-- A store whose row of doll 7 holds a `buy_date` that is not in the storage
encoding. -/
def corruptDateStore : Env where
  queryRow := fun _ => .row ⟨7, str "Teddy", 4623226492472524800, str "bear", str "29/02/2024"⟩
  query := .rows [⟨7, str "Teddy", 4623226492472524800, str "bear", str "29/02/2024"⟩]
  exec := fun _ => .ok ⟨.ok 8, .ok 1⟩
  decode := fun _ => some teddy
  marshalDoll := sampleMarshal
  marshalList := fun _ => some (str "[]")
  writeFails := false

/-- A create payload: the JSON object of `teddy`, with the JSON text `idJSON`
as the value of its `id` member. -/
def createBody (idJSON : GoString) : GoString :=
  str "\x7b\"id\":" ++ idJSON ++
    str ",\"name\":\"Teddy\",\"price\":12.5,\"animal_type\":\"bear\",\"buy_date\":\"2024-02-29T07:05:09Z\"\x7d"

/-- A store that generates id 8, with a codec that knows the create payloads
of `teddy` whose `id` member is the number `1` or the number `99`: they
decode to `teddy` with that `ID`. Every other body is a decode error here, as
it is for `encoding/json` on the payload whose `id` member is the JSON string
`"1"`: a string stored into the field `ID int` is an `UnmarshalTypeError`,
which `Decode` returns. -/
def typedIdStore : Env where
  queryRow := fun _ => .errNoRows
  query := .rows []
  exec := fun _ => .ok ⟨.ok 8, .ok 1⟩
  decode := fun b =>
    if b = createBody (str "1") then some { teddy with ID := 1 }
    else if b = createBody (str "99") then some { teddy with ID := 99 }
    else none
  marshalDoll := sampleMarshal
  marshalList := fun _ => some (str "[]")
  writeFails := false

/-! ## `strings.Split` on the separator `dolls/` -/

theorem pathMarker_eq : pathMarker = [100, 111, 108, 108, 115, 47] := by decide

theorem Index_some_split (sep : GoString) :
    ∀ (s : GoString) (i : Nat), Index s sep = some i →
      s = s.take i ++ sep ++ s.drop (i + sep.length) ∧ sep.isPrefixOf (s.drop i) = true := by
  intro s
  induction s with
  | nil =>
    intro i h
    simp only [Index] at h
    split at h
    · rename_i hp
      cases h
      have : sep = [] := by cases sep <;> simp_all [List.isPrefixOf]
      subst this
      simp
    · cases h
  | cons c t ih =>
    intro i h
    simp only [Index] at h
    split at h
    · rename_i hp
      cases h
      have hp2 : sep <+: c :: t := List.isPrefixOf_iff_prefix.mp hp
      obtain ⟨r, hr⟩ := hp2
      refine ⟨?_, by simpa using hp⟩
      simp only [List.take_zero, List.nil_append, Nat.zero_add]
      rw [← hr]; simp
    · cases hi : Index t sep with
      | none => simp [hi] at h
      | some j =>
        simp [hi] at h
        subst h
        obtain ⟨h1, h2⟩ := ih j hi
        refine ⟨?_, by simpa using h2⟩
        have : j + 1 + sep.length = (j + sep.length) + 1 := by omega
        rw [this]
        simp only [List.take_succ_cons, List.drop_succ_cons, List.cons_append]
        congr 1

theorem Index_none_occurrences (sep : GoString) :
    ∀ s : GoString, Index s sep = none → occurrences sep s = 0 := by
  intro s
  induction s with
  | nil => intro h; simp only [Index] at h; split at h <;> simp_all [occurrences]
  | cons c t ih =>
    intro h
    simp only [Index] at h
    split at h
    · cases h
    · rename_i hp
      simp only [Option.map_eq_none'] at h
      simp [occurrences, hp, ih h]

theorem Index_some_occurrences (sep : GoString) :
    ∀ (s : GoString) (i : Nat), Index s sep = some i →
      occurrences sep s = occurrences sep (s.drop i) := by
  intro s
  induction s with
  | nil => intro i h; simp
  | cons c t ih =>
    intro i h
    simp only [Index] at h
    split at h
    · cases h; simp
    · rename_i hp
      cases hi : Index t sep with
      | none => simp [hi] at h
      | some j =>
        simp [hi] at h
        subst h
        simp [occurrences, hp, ih j hi]

theorem occurrences_le_length (sep : GoString) (hne : sep ≠ []) :
    ∀ s : GoString, occurrences sep s ≤ s.length := by
  intro s
  induction s with
  | nil => cases sep <;> simp_all [occurrences, List.isPrefixOf]
  | cons c t ih =>
    simp only [occurrences, List.length_cons]
    split <;> omega

/-- No occurrence of the pathMarker starts inside an occurrence of the pathMarker. -/
theorem occurrences_pathMarker_skip (v : GoString) :
    occurrences pathMarker ((pathMarker ++ v).drop 1) = occurrences pathMarker v := by
  simp [pathMarker_eq, occurrences, List.isPrefixOf]

theorem occurrences_pathMarker_step (s : GoString) (i : Nat) (h : Index s pathMarker = some i) :
    occurrences pathMarker s = occurrences pathMarker (s.drop (i + pathMarker.length)) + 1 := by
  obtain ⟨h1, h2⟩ := Index_some_split pathMarker s i h
  rw [Index_some_occurrences pathMarker s i h]
  have hd : s.drop i = pathMarker ++ s.drop (i + pathMarker.length) := by
    conv_lhs => rw [h1]
    have hl : (s.take i).length = i := by
      have hp := (List.isPrefixOf_iff_prefix.mp h2).length_le
      rw [List.length_drop] at hp
      have hm : pathMarker.length = 6 := by simp [pathMarker_eq]
      rw [List.length_take]; omega
    rw [List.append_assoc, List.drop_left' hl]
  rw [hd]
  have h3 := occurrences_pathMarker_skip (s.drop (i + pathMarker.length))
  have h4 : occurrences pathMarker (pathMarker ++ s.drop (i + pathMarker.length)) =
      1 + occurrences pathMarker ((pathMarker ++ s.drop (i + pathMarker.length)).drop 1) := by
    simp [pathMarker_eq, occurrences, List.isPrefixOf]
  rw [h4, h3]; omega

theorem countLoop_pathMarker : ∀ (fuel : Nat) (s : GoString), s.length ≤ fuel →
    countLoop pathMarker fuel s = occurrences pathMarker s := by
  intro fuel
  induction fuel with
  | zero =>
    intro s hs
    have : s = [] := List.length_eq_zero.mp (by omega)
    subst this
    simp [countLoop, occurrences, pathMarker_eq, List.isPrefixOf]
  | succ n ih =>
    intro s hs
    simp only [countLoop]
    cases hi : Index s pathMarker with
    | none => simp [Index_none_occurrences pathMarker s hi]
    | some i =>
      simp only
      rw [occurrences_pathMarker_step s i hi, ih]
      simp [pathMarker_eq]; omega

theorem Count_pathMarker (s : GoString) : Count s pathMarker = occurrences pathMarker s := by
  unfold Count
  rw [if_neg (by simp [pathMarker_eq])]
  exact countLoop_pathMarker _ _ (le_refl _)

theorem splitLoop_ne_nil (sep : GoString) (k : Nat) (s : GoString) : splitLoop sep k s ≠ [] := by
  cases k with
  | zero => simp [splitLoop]
  | succ n => simp only [splitLoop]; split <;> simp

theorem Split_pathMarker (s : GoString) : Split s pathMarker = splitLoop pathMarker (occurrences pathMarker s) s := by
  unfold Split
  rw [if_neg (by simp [pathMarker_eq]), Count_pathMarker]
  have := occurrences_le_length pathMarker (by simp [pathMarker_eq]) s
  congr 1
  omega

theorem splitLoop_pathMarker_length : ∀ (k : Nat) (s : GoString), k ≤ occurrences pathMarker s →
    (splitLoop pathMarker k s).length = k + 1 := by
  intro k
  induction k with
  | zero => intro s _; simp [splitLoop]
  | succ n ih =>
    intro s hk
    simp only [splitLoop]
    cases hi : Index s pathMarker with
    | none => have := Index_none_occurrences pathMarker s hi; omega
    | some i =>
      simp only [List.length_cons]
      rw [ih]
      have := occurrences_pathMarker_step s i hi
      omega

theorem Split_pathMarker_length (s : GoString) :
    (Split s pathMarker).length = occurrences pathMarker s + 1 := by
  rw [Split_pathMarker]; exact splitLoop_pathMarker_length _ _ (le_refl _)


theorem Split_pathMarker_cases (path : GoString) :
    (occurrences pathMarker path = 0 ∧ Split path pathMarker = [path]) ∨
    (occurrences pathMarker path = 1 ∧ ∃ pre t, path = pre ++ pathMarker ++ t ∧
      occurrences pathMarker t = 0 ∧ Split path pathMarker = [pre, t]) ∨
    (2 ≤ occurrences pathMarker path ∧
      (Split path pathMarker).length = occurrences pathMarker path + 1) := by
  rcases Nat.lt_or_ge (occurrences pathMarker path) 2 with h | h
  · rcases Nat.eq_zero_or_pos (occurrences pathMarker path) with h0 | hpos
    · left
      refine ⟨h0, ?_⟩
      rw [Split_pathMarker, h0]; rfl
    · right; left
      have h1 : occurrences pathMarker path = 1 := by omega
      refine ⟨h1, ?_⟩
      cases hi : Index path pathMarker with
      | none => have := Index_none_occurrences pathMarker path hi; omega
      | some i =>
        have hstep := occurrences_pathMarker_step path i hi
        have hsplit := (Index_some_split pathMarker path i hi).1
        refine ⟨path.take i, path.drop (i + pathMarker.length), hsplit, by omega, ?_⟩
        rw [Split_pathMarker, h1]
        simp [splitLoop, hi]
  · right; right
    exact ⟨h, Split_pathMarker_length path⟩

theorem dollPathCheck_of_Split_one (path a : GoString) (h : Split path pathMarker = [a]) :
    dollPathCheck path = (match Atoi a with | none => .notFound | some n => .id n) := by
  simp [dollPathCheck, h]

theorem dollPathCheck_of_Split_two (path a b : GoString) (h : Split path pathMarker = [a, b]) :
    dollPathCheck path = (match Atoi b with | none => .notFound | some n => .id n) := by
  simp [dollPathCheck, h]

theorem dollPathCheck_of_two_occurrences (path : GoString)
    (h : 2 ≤ occurrences pathMarker path) : dollPathCheck path = .badRequest := by
  have hl := Split_pathMarker_length path
  unfold dollPathCheck
  simp only [List.length_drop]
  rw [if_neg (by omega), if_pos (by omega)]

theorem occurrences_of_not_mem (sep : GoString) (b : Nat) (hb : b ∈ sep) :
    ∀ s : GoString, b ∉ s → occurrences sep s = 0 := by
  intro s
  induction s with
  | nil =>
    intro _
    cases sep with
    | nil => simp at hb
    | cons x xs => simp [occurrences, List.isPrefixOf]
  | cons c t ih =>
    intro hs
    have hpre : sep.isPrefixOf (c :: t) = false := by
      by_contra hcon
      have hp : sep <+: c :: t := List.isPrefixOf_iff_prefix.mp (by simpa using hcon)
      exact hs (hp.subset hb)
    have ht : b ∉ t := fun hmem => hs (List.mem_cons_of_mem c hmem)
    simp [occurrences, hpre, ih ht]

theorem Split_api_dolls (s : GoString) (hs : 47 ∉ s) :
    Split (str "/api/dolls/" ++ s) pathMarker = [str "/api/", s] := by
  have hp : str "/api/dolls/" = [47, 97, 112, 105, 47, 100, 111, 108, 108, 115, 47] := by decide
  have ha : str "/api/" = [47, 97, 112, 105, 47] := by decide
  have h0 : occurrences pathMarker s = 0 :=
    occurrences_of_not_mem pathMarker 47 (by simp [pathMarker_eq]) s hs
  have hocc : occurrences pathMarker (str "/api/dolls/" ++ s) = 1 := by
    simp [hp, pathMarker_eq, occurrences, List.isPrefixOf, h0]
    simpa [pathMarker_eq] using h0
  rw [Split_pathMarker, hocc, hp, ha]
  simp [splitLoop, Index, pathMarker_eq, List.isPrefixOf]

/-! ## Path parsing of the item handler -/

/-- C10: for every request path, the path parsing of `handleDoll` indexes
nothing out of range (`strings.Split` on `dolls/` yields at least one piece,
the handler never panics), and the path check answers 400 exactly when
`dolls/` occurs at two or more offsets of the path; otherwise the text after
the last occurrence (the whole path when there is none) is what
`strconv.Atoi` receives as the id. -/
theorem handleDoll_path_parsing (env : Env) (r : Request) :
    Split r.Path pathMarker ≠ [] ∧
    dollPathCheck r.Path ≠ .outOfRange ∧
    (handleDoll env r).exit ≠ .panicked ∧
    ((2 ≤ occurrences pathMarker r.Path ∧ dollPathCheck r.Path = .badRequest ∧
        handleDoll env r = ⟨⟨some 400, []⟩, [], .returned⟩) ∨
     (occurrences pathMarker r.Path < 2 ∧ dollPathCheck r.Path ≠ .badRequest ∧
        ∃ t : GoString,
          ((occurrences pathMarker r.Path = 0 ∧ t = r.Path) ∨
           (∃ pre, r.Path = pre ++ pathMarker ++ t ∧ occurrences pathMarker t = 0)) ∧
          dollPathCheck r.Path = (match Atoi t with | none => .notFound | some n => .id n))) := by
  have hne : Split r.Path pathMarker ≠ [] := by
    rw [Split_pathMarker]; exact splitLoop_ne_nil _ _ _
  have hcheck : dollPathCheck r.Path ≠ .outOfRange ∧
      ((2 ≤ occurrences pathMarker r.Path ∧ dollPathCheck r.Path = .badRequest) ∨
       (occurrences pathMarker r.Path < 2 ∧ dollPathCheck r.Path ≠ .badRequest ∧
        ∃ t : GoString,
          ((occurrences pathMarker r.Path = 0 ∧ t = r.Path) ∨
           (∃ pre, r.Path = pre ++ pathMarker ++ t ∧ occurrences pathMarker t = 0)) ∧
          dollPathCheck r.Path =
            (match Atoi t with | none => .notFound | some n => .id n))) := by
    rcases Split_pathMarker_cases r.Path with ⟨h0, hs⟩ | ⟨h1, pre, t, hp, ht, hs⟩ | ⟨h2, _⟩
    · have hd := dollPathCheck_of_Split_one r.Path r.Path hs
      refine ⟨?_, Or.inr ⟨by omega, ?_, r.Path, Or.inl ⟨h0, rfl⟩, hd⟩⟩ <;>
        (rw [hd]; cases Atoi r.Path <;> simp)
    · have hd := dollPathCheck_of_Split_two r.Path pre t hs
      refine ⟨?_, Or.inr ⟨by omega, ?_, t, Or.inr ⟨pre, hp, ht⟩, hd⟩⟩ <;>
        (rw [hd]; cases Atoi t <;> simp)
    · have hd := dollPathCheck_of_two_occurrences r.Path h2
      exact ⟨by rw [hd]; simp, Or.inl ⟨h2, hd⟩⟩
  refine ⟨hne, hcheck.1, ?_, ?_⟩
  · have h1 := hcheck.1
    unfold handleDoll
    cases hd : dollPathCheck r.Path with
    | outOfRange => exact absurd hd h1
    | badRequest => simp
    | notFound => simp
    | id n =>
      simp only
      split_ifs <;> (repeat' split) <;> simp
  · rcases hcheck.2 with ⟨h2, hd⟩ | h
    · left
      refine ⟨h2, hd, ?_⟩
      simp [handleDoll, hd, ResponseWriter.WriteHeader, StatusBadRequest]
    · right; exact h

/-- C1, evaluated on the code: for `GET /api/dolls/1/2` the split on `dolls/`
yields the two pieces `/api/` and `1/2`, the path check does not answer 400,
`strconv.Atoi` fails on `1/2`, and the response is 404 Not Found. -/
theorem handleDoll_two_segments_not_found (env : Env) :
    Split (str "/api/dolls/1/2") pathMarker = [str "/api/", str "1/2"] ∧
    dollPathCheck (str "/api/dolls/1/2") = .notFound ∧
    handleDoll env ⟨MethodGet, str "/api/dolls/1/2", []⟩ = ⟨⟨some 404, []⟩, [], .returned⟩ := by
  have hd : dollPathCheck (str "/api/dolls/1/2") = .notFound := by decide
  refine ⟨by decide, hd, ?_⟩
  simp [handleDoll, hd, ResponseWriter.WriteHeader, StatusNotFound]

/-- C2: for every method and every path `/api/dolls/<s>` where `<s>` holds no
slash and `strconv.Atoi` rejects it, `handleDoll` answers 404 Not Found with
an empty body and sends no statement to the store. -/
theorem handleDoll_unparseable_id (env : Env) (method body s : GoString)
    (hseg : 47 ∉ s) (hparse : Atoi s = none) :
    (handleDoll env ⟨method, str "/api/dolls/" ++ s, body⟩).status = 404 ∧
    (handleDoll env ⟨method, str "/api/dolls/" ++ s, body⟩).calls = [] ∧
    (handleDoll env ⟨method, str "/api/dolls/" ++ s, body⟩).body = [] ∧
    (handleDoll env ⟨method, str "/api/dolls/" ++ s, body⟩).exit = .returned := by
  have hd : dollPathCheck (str "/api/dolls/" ++ s) = .notFound := by
    rw [dollPathCheck_of_Split_two _ _ _ (Split_api_dolls s hseg), hparse]
  simp [handleDoll, hd, ResponseWriter.WriteHeader, StatusNotFound, Outcome.status,
    Outcome.body]

/-- Witness of C2: `GET /api/dolls/abc`. -/
theorem handleDoll_unparseable_id_witness :
    47 ∉ str "abc" ∧ Atoi (str "abc") = none ∧
    (handleDoll emptyStore ⟨MethodGet, str "/api/dolls/" ++ str "abc", []⟩).status = 404 ∧
    (handleDoll emptyStore ⟨MethodGet, str "/api/dolls/" ++ str "abc", []⟩).calls = [] :=
  ⟨by decide, by decide,
    (handleDoll_unparseable_id emptyStore MethodGet [] (str "abc") (by decide) (by decide)).1,
    (handleDoll_unparseable_id emptyStore MethodGet [] (str "abc") (by decide) (by decide)).2.1⟩

/-! ## Dispatch on the method -/

theorem methods_distinct :
    MethodPut ≠ MethodGet ∧ MethodDelete ≠ MethodGet ∧ MethodDelete ≠ MethodPut ∧
    MethodPost ≠ MethodGet ∧ MethodOptions ≠ MethodGet ∧ MethodOptions ≠ MethodPost := by
  decide

theorem handleDoll_get_eq (env : Env) (r : Request) (dollID : Int)
    (hm : r.Method = MethodGet) (hp : dollPathCheck r.Path = .id dollID) :
    handleDoll env r =
      (match getDoll env dollID with
        | (.error _, calls) => ⟨⟨some 500, []⟩, calls, .returned⟩
        | (.ok none, calls) => ⟨⟨some 404, []⟩, calls, .returned⟩
        | (.ok (some doll), calls) =>
          match env.marshalDoll doll with
          | none => ⟨⟨none, []⟩, calls, .fatal⟩
          | some dollJSON =>
            ⟨⟨some 200, dollJSON⟩, calls, if env.writeFails then .fatal else .returned⟩) := by
  simp only [handleDoll, hp, hm, if_true]
  rfl

theorem handleDoll_put_eq (env : Env) (r : Request) (dollID : Int)
    (hm : r.Method = MethodPut) (hp : dollPathCheck r.Path = .id dollID) :
    handleDoll env r =
      (match env.decode r.Body with
        | none => ⟨⟨some 400, []⟩, [], .returned⟩
        | some doll =>
          match updateDoll env doll dollID with
          | (some _, calls) => ⟨⟨some 400, []⟩, calls, .returned⟩
          | (none, calls) => ⟨⟨some 200, []⟩, calls, .returned⟩) := by
  simp only [handleDoll, hp, hm, if_neg methods_distinct.1, if_true]
  rfl

theorem handleDoll_delete_eq (env : Env) (r : Request) (dollID : Int)
    (hm : r.Method = MethodDelete) (hp : dollPathCheck r.Path = .id dollID) :
    handleDoll env r =
      (match donateDoll env dollID with
        | (some _, calls) => ⟨⟨some 500, []⟩, calls, .returned⟩
        | (none, calls) => ⟨⟨some 200, []⟩, calls, .returned⟩) := by
  simp only [handleDoll, hp, hm, if_neg methods_distinct.2.1, if_neg methods_distinct.2.2.1,
    if_true]
  rfl

theorem handleDolls_get_eq (env : Env) (r : Request) (hm : r.Method = MethodGet) :
    handleDolls env r =
      (match getDollList env with
        | (.error _, calls) => ⟨⟨some 500, []⟩, calls, .returned⟩
        | (.ok dollList, calls) =>
          match env.marshalList dollList with
          | none => ⟨⟨none, []⟩, calls, .fatal⟩
          | some dollListJSON =>
            ⟨⟨some 200, dollListJSON⟩, calls,
              if env.writeFails then .fatal else .returned⟩) := by
  simp only [handleDolls, hm, if_true]
  rfl

theorem handleDolls_post_eq (env : Env) (r : Request) (hm : r.Method = MethodPost) :
    handleDolls env r =
      (match env.decode r.Body with
        | none => ⟨⟨some 400, []⟩, [], .returned⟩
        | some doll =>
          match newDoll env doll with
          | (.error _, calls) => ⟨⟨some 400, []⟩, calls, .returned⟩
          | (.ok dollID, calls) =>
            ⟨⟨some 201, str "dollID:" ++ fmtD dollID⟩, calls, .returned⟩) := by
  simp only [handleDolls, hm, if_neg methods_distinct.2.2.2.1, if_true]
  rfl

/-! ## Status mapping of the handlers -/

/-- C3: for every id the path check yields, GET on the item handler answers
404 (not 500) when the store has no row, `getDoll` returning the absent
result without error; and when the row's date decodes, the response is 200
with the JSON encoding of that doll as body (the encoding being the one
`json.Marshal` returns). -/
theorem handleDoll_get_maps_store_outcome (env : Env) (r : Request) (dollID : Int)
    (hm : r.Method = MethodGet) (hp : dollPathCheck r.Path = .id dollID) :
    (env.queryRow dollID = .errNoRows →
      (getDoll env dollID).1 = .ok none ∧
      (handleDoll env r).status = 404 ∧ (handleDoll env r).status ≠ 500 ∧
      (handleDoll env r).body = [] ∧ (handleDoll env r).exit = .returned) ∧
    (∀ (row : Row) (buyDate : Time) (dollJSON : GoString),
      env.queryRow dollID = .row row → Parse row.buyDate = some buyDate →
      env.marshalDoll ⟨row.id, row.name, row.price, row.animalType, buyDate⟩ = some dollJSON →
      (getDoll env dollID).1 =
        .ok (some ⟨row.id, row.name, row.price, row.animalType, buyDate⟩) ∧
      (handleDoll env r).status = 200 ∧ (handleDoll env r).body = dollJSON) := by
  rw [handleDoll_get_eq env r dollID hm hp]
  constructor
  · intro hq
    simp [getDoll, hq, Outcome.status, Outcome.body]
  · intro row buyDate dollJSON hq hparse hjson
    simp [getDoll, hq, hparse, hjson, Outcome.status, Outcome.body]

/-- Witness of C3: `GET /api/dolls/7` on the empty store is 404, on the store
holding doll 7 it is 200 with the encoding of that doll. -/
theorem handleDoll_get_maps_store_outcome_witness :
    (handleDoll emptyStore ⟨MethodGet, str "/api/dolls/7", []⟩).status = 404 ∧
    (handleDoll oneDollStore ⟨MethodGet, str "/api/dolls/7", []⟩).status = 200 ∧
    (handleDoll oneDollStore ⟨MethodGet, str "/api/dolls/7", []⟩).body =
      str "\x7b\"id\":7\x7d" :=
  ⟨((handleDoll_get_maps_store_outcome emptyStore ⟨MethodGet, str "/api/dolls/7", []⟩ 7 rfl
      (by decide)).1 rfl).2.1,
   ((handleDoll_get_maps_store_outcome oneDollStore ⟨MethodGet, str "/api/dolls/7", []⟩ 7 rfl
      (by decide)).2 teddyRow ⟨2024, 2, 29, 7, 5, 9, 0, 0⟩ (str "\x7b\"id\":7\x7d")
      (by decide) (by decide) (by decide)).2.1,
   ((handleDoll_get_maps_store_outcome oneDollStore ⟨MethodGet, str "/api/dolls/7", []⟩ 7 rfl
      (by decide)).2 teddyRow ⟨2024, 2, 29, 7, 5, 9, 0, 0⟩ (str "\x7b\"id\":7\x7d")
      (by decide) (by decide) (by decide)).2.2⟩

/-- C4: a failure `e` returned by the store call maps to a status fixed by the
operation, with an empty body: 500 for GET on the collection, GET on an item
and DELETE on an item; 400 for POST on the collection (the insert or
`LastInsertId` failing) and PUT on an item. -/
theorem store_failure_status (env : Env) (e : GoError) :
    (∀ r : Request, r.Method = MethodGet → env.query = .failed e →
      (handleDolls env r).status = 500 ∧ (handleDolls env r).body = [] ∧
      (handleDolls env r).exit = .returned) ∧
    (∀ (r : Request) (doll : Doll), r.Method = MethodPost → env.decode r.Body = some doll →
      (env.exec (insertStmt doll) = .failed e ∨
        ∃ res, env.exec (insertStmt doll) = .ok res ∧ res.lastInsertId = .error e) →
      (handleDolls env r).status = 400 ∧ (handleDolls env r).body = [] ∧
      (handleDolls env r).exit = .returned) ∧
    (∀ (r : Request) (dollID : Int), r.Method = MethodGet →
      dollPathCheck r.Path = .id dollID → env.queryRow dollID = .failed e →
      (handleDoll env r).status = 500 ∧ (handleDoll env r).body = [] ∧
      (handleDoll env r).exit = .returned) ∧
    (∀ (r : Request) (dollID : Int) (doll : Doll), r.Method = MethodPut →
      dollPathCheck r.Path = .id dollID → env.decode r.Body = some doll →
      env.exec (updateStmt doll dollID) = .failed e →
      (handleDoll env r).status = 400 ∧ (handleDoll env r).body = [] ∧
      (handleDoll env r).exit = .returned) ∧
    (∀ (r : Request) (dollID : Int), r.Method = MethodDelete →
      dollPathCheck r.Path = .id dollID → env.exec (.delete dollID) = .failed e →
      (handleDoll env r).status = 500 ∧ (handleDoll env r).body = [] ∧
      (handleDoll env r).exit = .returned) := by
  refine ⟨?_, ?_, ?_, ?_, ?_⟩
  · intro r hm hq
    rw [handleDolls_get_eq env r hm]
    simp [getDollList, hq, Outcome.status, Outcome.body]
  · intro r doll hm hdec hfail
    rw [handleDolls_post_eq env r hm]
    rcases hfail with hx | ⟨res, hx, hid⟩
    · simp [hdec, newDoll, hx, Outcome.status, Outcome.body]
    · simp [hdec, newDoll, hx, hid, Outcome.status, Outcome.body]
  · intro r dollID hm hp hq
    rw [handleDoll_get_eq env r dollID hm hp]
    simp [getDoll, hq, Outcome.status, Outcome.body]
  · intro r dollID doll hm hp hdec hx
    rw [handleDoll_put_eq env r dollID hm hp]
    simp [hdec, updateDoll, hx, Outcome.status, Outcome.body]
  · intro r dollID hm hp hx
    rw [handleDoll_delete_eq env r dollID hm hp]
    simp [donateDoll, hx, Outcome.status, Outcome.body]

/-- Witness of C4: on the store whose calls all time out, the five operations
answer 500, 400, 500, 400, 500. -/
theorem store_failure_status_witness :
    (handleDolls brokenStore ⟨MethodGet, str "/api/dolls", []⟩).status = 500 ∧
    (handleDolls brokenStore ⟨MethodPost, str "/api/dolls", []⟩).status = 400 ∧
    (handleDoll brokenStore ⟨MethodGet, str "/api/dolls/7", []⟩).status = 500 ∧
    (handleDoll brokenStore ⟨MethodPut, str "/api/dolls/7", []⟩).status = 400 ∧
    (handleDoll brokenStore ⟨MethodDelete, str "/api/dolls/7", []⟩).status = 500 :=
  ⟨((store_failure_status brokenStore .deadlineExceeded).1
      ⟨MethodGet, str "/api/dolls", []⟩ rfl rfl).1,
   ((store_failure_status brokenStore .deadlineExceeded).2.1
      ⟨MethodPost, str "/api/dolls", []⟩ teddy rfl rfl (Or.inl rfl)).1,
   ((store_failure_status brokenStore .deadlineExceeded).2.2.1
      ⟨MethodGet, str "/api/dolls/7", []⟩ 7 rfl (by decide) rfl).1,
   ((store_failure_status brokenStore .deadlineExceeded).2.2.2.1
      ⟨MethodPut, str "/api/dolls/7", []⟩ 7 teddy rfl (by decide) rfl rfl).1,
   ((store_failure_status brokenStore .deadlineExceeded).2.2.2.2
      ⟨MethodDelete, str "/api/dolls/7", []⟩ 7 rfl (by decide) rfl).1⟩

/-- C5: for every id the path check yields, PUT (with a body that decodes)
and DELETE answer 200 OK with an empty body whenever the store executes the
statement without error, whatever `sql.Result` it returns: `updateDoll` and
`donateDoll` return the nil error without reading the rows affected. -/
theorem handleDoll_write_ignores_rows_affected (env : Env) (r : Request) (dollID : Int)
    (hp : dollPathCheck r.Path = .id dollID) :
    (∀ (doll : Doll) (res : SqlResult), r.Method = MethodPut →
      env.decode r.Body = some doll → env.exec (updateStmt doll dollID) = .ok res →
      (updateDoll env doll dollID).1 = none ∧
      (handleDoll env r).status = 200 ∧ (handleDoll env r).body = [] ∧
      (handleDoll env r).exit = .returned) ∧
    (∀ res : SqlResult, r.Method = MethodDelete → env.exec (.delete dollID) = .ok res →
      (donateDoll env dollID).1 = none ∧
      (handleDoll env r).status = 200 ∧ (handleDoll env r).body = [] ∧
      (handleDoll env r).exit = .returned) := by
  constructor
  · intro doll res hm hdec hx
    rw [handleDoll_put_eq env r dollID hm hp]
    simp [hdec, updateDoll, hx, Outcome.status, Outcome.body]
  · intro res hm hx
    rw [handleDoll_delete_eq env r dollID hm hp]
    simp [donateDoll, hx, Outcome.status, Outcome.body]

/-- Witness of C5: on the empty store, where the statements affect zero rows,
`PUT /api/dolls/7` and `DELETE /api/dolls/7` answer 200. -/
theorem handleDoll_write_ignores_rows_affected_witness :
    dollPathCheck (str "/api/dolls/7") = .id 7 ∧
    emptyStore.exec (.delete 7) = .ok ⟨.ok 1, .ok 0⟩ ∧
    (handleDoll emptyStore ⟨MethodPut, str "/api/dolls/7", []⟩).status = 200 ∧
    (handleDoll emptyStore ⟨MethodDelete, str "/api/dolls/7", []⟩).status = 200 :=
  ⟨by decide, rfl,
   ((handleDoll_write_ignores_rows_affected emptyStore ⟨MethodPut, str "/api/dolls/7", []⟩ 7
      (by decide)).1 teddy ⟨.ok 1, .ok 0⟩ rfl rfl rfl).2.1,
   ((handleDoll_write_ignores_rows_affected emptyStore ⟨MethodDelete, str "/api/dolls/7", []⟩ 7
      (by decide)).2 ⟨.ok 1, .ok 0⟩ rfl rfl).2.1⟩

/-- C6 fails as stated: `PATCH /api/dolls/abc` names a method the item
handler does not support, yet the response is 404, not 405, because the path
check comes before the dispatch on the method. -/
theorem handleDoll_unsupported_method_bad_path :
    str "PATCH" ≠ MethodGet ∧ str "PATCH" ≠ MethodPut ∧ str "PATCH" ≠ MethodDelete ∧
    (handleDoll emptyStore ⟨str "PATCH", str "/api/dolls/abc", []⟩).status = 404 ∧
    (handleDoll emptyStore ⟨str "PATCH", str "/api/dolls/abc", []⟩).status ≠ 405 := by
  decide

/-- C6 as amended: on the collection handler every method other than GET,
POST, OPTIONS yields 405 for every path; on the item handler every method
other than GET, PUT, DELETE yields 405 when the path passes the path check,
and when the path check fails the response is its 400 or 404 whatever the
method. In each case the body is empty and the store is not called. -/
theorem method_not_allowed (env : Env) (r : Request) :
    (r.Method ≠ MethodGet → r.Method ≠ MethodPost → r.Method ≠ MethodOptions →
      handleDolls env r = ⟨⟨some 405, []⟩, [], .returned⟩) ∧
    (∀ dollID : Int, dollPathCheck r.Path = .id dollID →
      r.Method ≠ MethodGet → r.Method ≠ MethodPut → r.Method ≠ MethodDelete →
      handleDoll env r = ⟨⟨some 405, []⟩, [], .returned⟩) ∧
    (dollPathCheck r.Path = .badRequest →
      handleDoll env r = ⟨⟨some 400, []⟩, [], .returned⟩) ∧
    (dollPathCheck r.Path = .notFound →
      handleDoll env r = ⟨⟨some 404, []⟩, [], .returned⟩) := by
  refine ⟨?_, ?_, ?_, ?_⟩
  · intro h1 h2 h3
    simp only [handleDolls, if_neg h1, if_neg h2, if_neg h3]
    rfl
  · intro dollID hp h1 h2 h3
    simp only [handleDoll, hp, if_neg h1, if_neg h2, if_neg h3]
    rfl
  · intro hp
    simp only [handleDoll, hp]
    rfl
  · intro hp
    simp only [handleDoll, hp]
    rfl

/-- Witness of C6 as amended: `PATCH /api/dolls` and `OPTIONS /api/dolls/7`
answer 405, `PATCH /api/dolls/abc` answers 404. -/
theorem method_not_allowed_witness :
    (handleDolls emptyStore ⟨str "PATCH", str "/api/dolls", []⟩).status = 405 ∧
    (handleDoll emptyStore ⟨MethodOptions, str "/api/dolls/7", []⟩).status = 405 ∧
    (handleDoll emptyStore ⟨str "PATCH", str "/api/dolls/abc", []⟩).status = 404 :=
  ⟨by rw [(method_not_allowed emptyStore ⟨str "PATCH", str "/api/dolls", []⟩).1
      (by decide) (by decide) (by decide)]; rfl,
   by rw [(method_not_allowed emptyStore ⟨MethodOptions, str "/api/dolls/7", []⟩).2.1 7
      (by decide) (by decide) (by decide) (by decide)]; rfl,
   by rw [(method_not_allowed emptyStore ⟨str "PATCH", str "/api/dolls/abc", []⟩).2.2.2
      (by decide)]; rfl⟩

/-! ## A stored date that does not decode -/

theorem scanDolls_parse_failure : ∀ (rs : List Row) (dolls : List Doll),
    (∃ row ∈ rs, Parse row.buyDate = none) → scanDolls rs dolls = .error .timeParse := by
  intro rs
  induction rs with
  | nil => intro dolls h; simp at h
  | cons r rest ih =>
    intro dolls h
    simp only [scanDolls]
    cases hr : Parse r.buyDate with
    | none => rfl
    | some t =>
      simp only
      apply ih
      obtain ⟨row, hmem, hrow⟩ := h
      rcases List.mem_cons.mp hmem with heq | hmem
      · subst heq; rw [hr] at hrow; cases hrow
      · exact ⟨row, hmem, hrow⟩

/-- C7 fails as stated: on a store whose row holds the date `29/02/2024`,
`time.Parse` fails, and both `GET /api/dolls/7` and `GET /api/dolls` return
normally with status 500: the failure is an ordinary error, the process is
not halted. -/
theorem corrupt_date_is_recoverable :
    Parse (str "29/02/2024") = none ∧
    (getDoll corruptDateStore 7).1 = .error .timeParse ∧
    handleDoll corruptDateStore ⟨MethodGet, str "/api/dolls/7", []⟩ =
      ⟨⟨some 500, []⟩, [.selectOne 7], .returned⟩ ∧
    (getDollList corruptDateStore).1 = .error .timeParse ∧
    handleDolls corruptDateStore ⟨MethodGet, str "/api/dolls", []⟩ =
      ⟨⟨some 500, []⟩, [.selectAll], .returned⟩ :=
  ⟨by decide, by rfl, by decide, by rfl, by decide⟩

/-- C7 as amended: whenever a stored `buy_date` read by `getDoll` or
`getDollList` does not parse in the storage encoding, the function returns
the parse error as an ordinary error, and the GET handler returns normally
with status 500 and an empty body; the process is not halted. -/
theorem date_decode_failure_is_status_500 (env : Env) (r : Request)
    (hm : r.Method = MethodGet) :
    (∀ (dollID : Int) (row : Row), dollPathCheck r.Path = .id dollID →
      env.queryRow dollID = .row row → Parse row.buyDate = none →
      (getDoll env dollID).1 = .error .timeParse ∧
      handleDoll env r = ⟨⟨some 500, []⟩, [.selectOne dollID], .returned⟩) ∧
    (∀ rs : List Row, env.query = .rows rs → (∃ row ∈ rs, Parse row.buyDate = none) →
      (getDollList env).1 = .error .timeParse ∧
      handleDolls env r = ⟨⟨some 500, []⟩, [.selectAll], .returned⟩) := by
  constructor
  · intro dollID row hp hq hparse
    rw [handleDoll_get_eq env r dollID hm hp]
    simp [getDoll, hq, hparse]
  · intro rs hq hbad
    rw [handleDolls_get_eq env r hm]
    simp [getDollList, hq, scanDolls_parse_failure rs [] hbad]

/-- Witness of C7 as amended: the store with the date `29/02/2024`. -/
theorem date_decode_failure_is_status_500_witness :
    handleDoll corruptDateStore ⟨MethodGet, str "/api/dolls/7", []⟩ =
      ⟨⟨some 500, []⟩, [.selectOne 7], .returned⟩ ∧
    handleDolls corruptDateStore ⟨MethodGet, str "/api/dolls", []⟩ =
      ⟨⟨some 500, []⟩, [.selectAll], .returned⟩ :=
  ⟨((date_decode_failure_is_status_500 corruptDateStore ⟨MethodGet, str "/api/dolls/7", []⟩
      rfl).1 7 ⟨7, str "Teddy", 4623226492472524800, str "bear", str "29/02/2024"⟩
      (by decide) rfl (by decide)).2,
   ((date_decode_failure_is_status_500 corruptDateStore ⟨MethodGet, str "/api/dolls", []⟩
      rfl).2 [⟨7, str "Teddy", 4623226492472524800, str "bear", str "29/02/2024"⟩] rfl
      ⟨_, List.mem_singleton.mpr rfl, by decide⟩).2⟩

/-! ## Create ignores the client's id -/

/-- C9 fails as stated: the two create payloads of `teddy` with `"id":1` and
with `"id":"1"` differ only in their `id` member, yet the first is answered
201 Created with body `dollID:8` after one insert, and the second, which
`json.Decode` rejects, is answered 400 Bad Request with no insert: the
client-supplied id does influence the response and the stored row. -/
theorem handleDolls_post_ill_typed_id :
    createBody (str "1") =
      str "\x7b\"id\":1,\"name\":\"Teddy\",\"price\":12.5,\"animal_type\":\"bear\",\"buy_date\":\"2024-02-29T07:05:09Z\"\x7d" ∧
    createBody (str "\"1\"") =
      str "\x7b\"id\":\"1\",\"name\":\"Teddy\",\"price\":12.5,\"animal_type\":\"bear\",\"buy_date\":\"2024-02-29T07:05:09Z\"\x7d" ∧
    handleDolls typedIdStore ⟨MethodPost, str "/api/dolls", createBody (str "1")⟩ =
      ⟨⟨some 201, str "dollID:8"⟩,
        [.insert (str "Teddy") 4623226492472524800 (str "bear") (str "2024-02-29 07:05:09")],
        .returned⟩ ∧
    handleDolls typedIdStore ⟨MethodPost, str "/api/dolls", createBody (str "\"1\"")⟩ =
      ⟨⟨some 400, []⟩, [], .returned⟩ := by
  refine ⟨by decide, by decide, by decide, by decide⟩

/-- C9 as amended: two create payloads that both decode, to dolls differing
only in `ID`, make POST on the collection handler send the same insert
statement (name, price, animal type, encoded date) and produce the same
response; when the store succeeds with generated id `n`, the response is 201
Created with the body `dollID:` followed by `n` in decimal. -/
theorem handleDolls_post_ignores_client_id (env : Env) (r1 r2 : Request) (d1 d2 : Doll)
    (hm1 : r1.Method = MethodPost) (hm2 : r2.Method = MethodPost)
    (hd1 : env.decode r1.Body = some d1) (hd2 : env.decode r2.Body = some d2)
    (hsame : d1.Name = d2.Name ∧ d1.Price = d2.Price ∧ d1.AnimalType = d2.AnimalType ∧
      d1.BuyDate = d2.BuyDate) :
    (handleDolls env r1).calls = [.insert d1.Name d1.Price d1.AnimalType d1.BuyDate.Format] ∧
    (handleDolls env r2).calls = (handleDolls env r1).calls ∧
    handleDolls env r2 = handleDolls env r1 ∧
    (∀ (res : SqlResult) (n : Int),
      env.exec (.insert d1.Name d1.Price d1.AnimalType d1.BuyDate.Format) = .ok res →
      res.lastInsertId = .ok n →
      (handleDolls env r1).status = 201 ∧ (handleDolls env r1).body = str "dollID:" ++ fmtD n ∧
      (handleDolls env r2).status = 201 ∧
      (handleDolls env r2).body = str "dollID:" ++ fmtD n) := by
  obtain ⟨h1, h2, h3, h4⟩ := hsame
  have hstmt : insertStmt d2 = insertStmt d1 := by simp [insertStmt, h1, h2, h3, h4]
  have heq : handleDolls env r2 = handleDolls env r1 := by
    rw [handleDolls_post_eq env r1 hm1, handleDolls_post_eq env r2 hm2]
    simp only [hd1, hd2, newDoll, hstmt]
  have hcalls : (handleDolls env r1).calls = [insertStmt d1] := by
    rw [handleDolls_post_eq env r1 hm1]
    simp only [hd1, newDoll]
    cases env.exec (insertStmt d1) with
    | failed e => rfl
    | ok res =>
      obtain ⟨lastInsertId, rowsAffected⟩ := res
      cases lastInsertId <;> rfl
  refine ⟨hcalls, by rw [heq], heq, ?_⟩
  intro res n hx hid
  have hx1 : env.exec (insertStmt d1) = .ok res := hx
  rw [heq, handleDolls_post_eq env r1 hm1]
  simp [hd1, newDoll, hx1, hid, Outcome.status, Outcome.body]

/-- Witness of C9 as amended: the create payloads of `teddy` with `"id":1` and
with `"id":99`, on the store that generates id 8, both get `201` with body
`dollID:8` after the same insert. -/
theorem handleDolls_post_ignores_client_id_witness :
    typedIdStore.decode (createBody (str "1")) = some { teddy with ID := 1 } ∧
    typedIdStore.decode (createBody (str "99")) = some { teddy with ID := 99 } ∧
    (handleDolls typedIdStore ⟨MethodPost, str "/api/dolls", createBody (str "1")⟩).body =
      str "dollID:8" ∧
    handleDolls typedIdStore ⟨MethodPost, str "/api/dolls", createBody (str "99")⟩ =
      handleDolls typedIdStore ⟨MethodPost, str "/api/dolls", createBody (str "1")⟩ :=
  ⟨by decide, by decide,
   by
    rw [((handleDolls_post_ignores_client_id typedIdStore
      ⟨MethodPost, str "/api/dolls", createBody (str "1")⟩
      ⟨MethodPost, str "/api/dolls", createBody (str "99")⟩
      { teddy with ID := 1 } { teddy with ID := 99 } rfl rfl (by decide) (by decide)
      ⟨rfl, rfl, rfl, rfl⟩).2.2.2 ⟨.ok 8, .ok 1⟩ 8 rfl rfl).2.1]
    decide,
   (handleDolls_post_ignores_client_id typedIdStore
      ⟨MethodPost, str "/api/dolls", createBody (str "1")⟩
      ⟨MethodPost, str "/api/dolls", createBody (str "99")⟩
      { teddy with ID := 1 } { teddy with ID := 99 } rfl rfl (by decide) (by decide)
      ⟨rfl, rfl, rfl, rfl⟩).2.2.1⟩

/-! ## The storage encoding of `buy_date` -/

theorem appendInt_two (n : Nat) (h : n < 100) :
    appendInt (n : Int) 2 = [48 + n / 10, 48 + n % 10] := by
  simp [appendInt, h]

theorem appendInt_four (n : Nat) (h : n < 10000) :
    appendInt (n : Int) 4 =
      [48 + n / 1000, 48 + n / 100 % 10, 48 + n / 10 % 10, 48 + n % 10] := by
  simp [appendInt, h]

theorem getnum_two (a b : Nat) (rest : GoString) (fixed : Bool) (ha : a < 10) (hb : b < 10) :
    getnum ((48 + a) :: (48 + b) :: rest) fixed = some (a * 10 + b, rest) := by
  have h1 : 48 + a ≤ 57 := by omega
  have h2 : 48 + b ≤ 57 := by omega
  simp [getnum, isDigit, h1, h2]

theorem timeAtoi_four (a b c d : Nat) (ha : a < 10) (hb : b < 10) (hc : c < 10) (hd : d < 10) :
    timeAtoi [48 + a, 48 + b, 48 + c, 48 + d] =
      some ((a * 1000 + b * 100 + c * 10 + d : Nat) : Int) := by
  have e1 : ¬ (48 + a = 45) := by omega
  have e2 : ¬ (48 + a = 43) := by omega
  have h1 : ¬ (48 + a < 48 ∨ 48 + a > 57) := by omega
  have h2 : ¬ (48 + b < 48 ∨ 48 + b > 57) := by omega
  have h3 : ¬ (48 + c < 48 ∨ 48 + c > 57) := by omega
  have h4 : ¬ (48 + d < 48 ∨ 48 + d > 57) := by omega
  have k0 : ¬ (0 > 2 ^ 63 / 10) := by omega
  have k1 : ¬ (a > 2 ^ 63 / 10) := by omega
  have k2 : ¬ (a * 10 + b > 2 ^ 63 / 10) := by omega
  have k3 : ¬ ((a * 10 + b) * 10 + c > 2 ^ 63 / 10) := by omega
  have l1 : ¬ (a > 2 ^ 63) := by omega
  have l2 : ¬ (a * 10 + b > 2 ^ 63) := by omega
  have l3 : ¬ ((a * 10 + b) * 10 + c > 2 ^ 63) := by omega
  have l4 : ¬ (((a * 10 + b) * 10 + c) * 10 + d > 2 ^ 63) := by omega
  have l5 : ((a * 10 + b) * 10 + c) * 10 + d < 2 ^ 63 := by omega
  have hv : ((a * 10 + b) * 10 + c) * 10 + d = a * 1000 + b * 100 + c * 10 + d := by ring
  unfold timeAtoi
  simp only [List.head?_cons, Option.some.injEq, e1, e2, or_self, if_false]
  simp only [leadingInt, h1, h2, h3, h4, if_false, Nat.zero_mul, Nat.zero_add,
    Nat.add_sub_cancel_left, k0, k1, k2, k3, l1, l2, l3, l4]
  simp only [ne_eq, not_true_eq_false, if_false, hv]
  rw [if_pos (by omega)]

theorem skip_byte (b : Nat) (rest : GoString) (hb : b ≠ 32) :
    skip (b :: rest) [b] = some rest := by
  simp [skip, skipLoop, hb]

theorem skip_space_digit (a : Nat) (rest : GoString) :
    skip (32 :: (48 + a) :: rest) [32] = some ((48 + a) :: rest) := by
  have h : ¬ (48 + a = 32) := by omega
  simp [skip, skipLoop, cutspace, List.dropWhile, h]

theorem Parse_digits (y1 y2 y3 y4 m1 m2 d1 d2 h1 h2 n1 n2 s1 s2 : Nat)
    (hy1 : y1 < 10) (hy2 : y2 < 10) (hy3 : y3 < 10) (hy4 : y4 < 10)
    (hm1 : m1 < 10) (hm2 : m2 < 10) (hd1 : d1 < 10) (hd2 : d2 < 10)
    (hh1 : h1 < 10) (hh2 : h2 < 10) (hn1 : n1 < 10) (hn2 : n2 < 10)
    (hs1 : s1 < 10) (hs2 : s2 < 10)
    (hmonth : 1 ≤ m1 * 10 + m2 ∧ m1 * 10 + m2 ≤ 12)
    (hday : 1 ≤ d1 * 10 + d2 ∧
      d1 * 10 + d2 ≤ daysIn (m1 * 10 + m2) ((y1 * 1000 + y2 * 100 + y3 * 10 + y4 : Nat) : Int))
    (hhour : h1 * 10 + h2 < 24) (hmin : n1 * 10 + n2 < 60) (hsec : s1 * 10 + s2 < 60) :
    Parse [48 + y1, 48 + y2, 48 + y3, 48 + y4, 45, 48 + m1, 48 + m2, 45, 48 + d1, 48 + d2, 32,
        48 + h1, 48 + h2, 58, 48 + n1, 48 + n2, 58, 48 + s1, 48 + s2] =
      some ⟨((y1 * 1000 + y2 * 100 + y3 * 10 + y4 : Nat) : Int), m1 * 10 + m2, d1 * 10 + d2,
        h1 * 10 + h2, n1 * 10 + n2, s1 * 10 + s2, 0, 0⟩ := by
  have hdig : isDigit [48 + y1, 48 + y2, 48 + y3, 48 + y4, 45, 48 + m1, 48 + m2, 45, 48 + d1,
      48 + d2, 32, 48 + h1, 48 + h2, 58, 48 + n1, 48 + n2, 58, 48 + s1, 48 + s2] 0 = true := by
    have : 48 + y1 ≤ 57 := by omega
    simp [isDigit, this]
  unfold Parse
  simp only [List.length_cons, List.length_nil, hdig, List.take, List.drop,
    timeAtoi_four y1 y2 y3 y4 hy1 hy2 hy3 hy4,
    skip_byte 45 _ (by decide), skip_byte 58 _ (by decide), skip_space_digit,
    getnum_two m1 m2 _ true hm1 hm2, getnum_two d1 d2 _ true hd1 hd2,
    getnum_two h1 h2 _ false hh1 hh2, getnum_two n1 n2 _ true hn1 hn2,
    getnum_two s1 s2 _ true hs1 hs2]
  have c1 : ¬ (m1 * 10 + m2 ≤ 0 ∨ 12 < m1 * 10 + m2) := by omega
  have c2 : ¬ (24 ≤ h1 * 10 + h2) := by omega
  have c3 : ¬ (60 ≤ n1 * 10 + n2) := by omega
  have c4 : ¬ (60 ≤ s1 * 10 + s2) := by omega
  have c5 : ¬ (d1 * 10 + d2 < 1 ∨
      d1 * 10 + d2 > daysIn (m1 * 10 + m2) ((y1 * 1000 + y2 * 100 + y3 * 10 + y4 : Nat) : Int)) := by
    omega
  simp only [c1, c2, c3, c4, c5, if_false]
  simp

/-- C8: for every `buy_date` (a valid civil date and clock) whose year is in
0..9999, `time.Parse` of the storage string that `Format` produces succeeds
and returns the same year, month, day, hour, minute and second, with the
nanosecond and the zone offset zero; encoding the decoded value again yields
the identical storage string; and `getDoll` returns that decoded value for a
row holding the storage string. -/
theorem buy_date_round_trip (t : Time) (hv : t.valid) (hy : 0 ≤ t.year ∧ t.year ≤ 9999) :
    Parse t.Format = some ⟨t.year, t.month, t.day, t.hour, t.min, t.sec, 0, 0⟩ ∧
    (⟨t.year, t.month, t.day, t.hour, t.min, t.sec, 0, 0⟩ : Time).Format = t.Format ∧
    (∀ (env : Env) (dollID : Int) (row : Row),
      env.queryRow dollID = .row row → row.buyDate = t.Format →
      (getDoll env dollID).1 = .ok (some ⟨row.id, row.name, row.price, row.animalType,
        ⟨t.year, t.month, t.day, t.hour, t.min, t.sec, 0, 0⟩⟩)) := by
  obtain ⟨year, month, day, hour, min, sec, nsec, offset⟩ := t
  obtain ⟨hm1, hm2, hd1, hd2, hh, hmi, hs, _⟩ := hv
  simp only at hm1 hm2 hd1 hd2 hh hmi hs hy
  obtain ⟨y, rfl⟩ := Int.eq_ofNat_of_zero_le hy.1
  have hy2 : y ≤ 9999 := by exact_mod_cast hy.2
  have hdim : daysIn month (y : Int) ≤ 31 := by
    unfold daysIn
    split
    · omega
    · split <;> omega
  have hyv : y / 1000 * 1000 + y / 100 % 10 * 100 + y / 10 % 10 * 10 + y % 10 = y := by omega
  have hparse : Parse (Time.Format ⟨(y : Int), month, day, hour, min, sec, nsec, offset⟩) =
      some ⟨(y : Int), month, day, hour, min, sec, 0, 0⟩ := by
    have key := Parse_digits (y / 1000) (y / 100 % 10) (y / 10 % 10) (y % 10)
      (month / 10) (month % 10) (day / 10) (day % 10) (hour / 10) (hour % 10)
      (min / 10) (min % 10) (sec / 10) (sec % 10)
      (by omega) (by omega) (by omega) (by omega) (by omega) (by omega) (by omega) (by omega)
      (by omega) (by omega) (by omega) (by omega) (by omega) (by omega)
      (by omega) (by simp only [hyv, Nat.div_add_mod']; exact ⟨hd1, hd2⟩)
      (by omega) (by omega) (by omega)
    simp only [hyv, Nat.div_add_mod'] at key
    simp only [Time.Format, appendInt_four y (by omega), appendInt_two month (by omega),
      appendInt_two day (by omega), appendInt_two hour (by omega),
      appendInt_two min (by omega), appendInt_two sec (by omega), List.cons_append,
      List.nil_append]
    exact key
  refine ⟨hparse, rfl, ?_⟩
  intro env dollID row hq hrow
  simp only [getDoll, hq, hrow, hparse]

/-- Witness of C8: 29 February 2024, 07:05:09.123456789 at UTC+7 is stored as
`2024-02-29 07:05:09` and decodes to that clock at UTC. -/
theorem buy_date_round_trip_witness :
    (⟨2024, 2, 29, 7, 5, 9, 123456789, 25200⟩ : Time).Format = str "2024-02-29 07:05:09" ∧
    Parse (⟨2024, 2, 29, 7, 5, 9, 123456789, 25200⟩ : Time).Format =
      some ⟨2024, 2, 29, 7, 5, 9, 0, 0⟩ :=
  ⟨by decide,
   (buy_date_round_trip ⟨2024, 2, 29, 7, 5, 9, 123456789, 25200⟩ (by decide)
      ⟨by decide, by decide⟩).1⟩

end MyDolls
